import Mathlib

/-!
Verification of the ScamBane statistical steganography-detection engine
(`server/python_services/`): shallow embedding in Lean 4 of the pure
decision logic of

* `advanced_steganography.py` / `advanced_lsb_detector.py`
  (namespace `Adv`; the two files contain byte-identical copies of
  `chi_square_test`, `rs_analysis`, `composite_score`,
  `histogram_slope_analysis` and the confidence computation of
  `analyze_image`),
* `advanced_media_steganography.py` (namespace `Media`),
* `steganography_service.py` (namespace `StegService`).

Machine floats are modelled as exact rationals (every arithmetic
expression reached by the theorems below is exact or far from any
rounding boundary), `numpy` arrays as lists, Python dicts with
optional keys as structures with `Option` fields, and a Python
function that may raise as a function into `Except String`.
The transcendental chi-square survival function `scipy.stats.chi2.sf`
is kept symbolic (constructor `PVal.sf`): no claim depends on its
numeric value, only on which branch of the surrounding code runs.
-/

set_option maxHeartbeats 1000000

abbrev Plane := List (List ℕ)

/-- A p-value as produced by `scipy.stats.chisquare`: either the symbolic
value `chi2.sf chi dof` (transcendental, hence not evaluated in the
model; `sf chi 0` stands for the NaN scipy produces when `dof = 0`),
or an exact rational (the fallback literals in the source). -/
inductive PVal where
  | sf (chi : ℚ) (dof : ℕ)
  | exact (q : ℚ)
deriving DecidableEq, Repr

/-- Insertion into a sorted list (helper for the `np.unique` model). -/
def insertSorted (x : ℕ) : List ℕ → List ℕ
  | [] => [x]
  | y :: ys => if x ≤ y then x :: y :: ys else y :: insertSorted x ys

/-- Insertion sort on naturals (helper for the `np.unique` model). -/
def sortNat (l : List ℕ) : List ℕ := l.foldr insertSorted []

/-- `np.unique(flat)`: the distinct values of `flat` in increasing order. -/
def uniqueSorted (l : List ℕ) : List ℕ := sortNat l.dedup

/-- `np.unique(flat, return_counts=True)`: occurrence counts aligned with
`uniqueSorted`. -/
def uniqueCounts (l : List ℕ) : List ℕ := (uniqueSorted l).map (fun v => l.count v)

/-- numpy 1-D broadcasting of two shapes `(n,)` and `(m,)`:
compatible iff the lengths agree or one of them is `1`. -/
def broadcastLen (n m : ℕ) : Option ℕ :=
  if n = m then some n
  else if n = 1 then some m
  else if m = 1 then some n
  else none

/-- Broadcast a 1-vector to length `k` (identity when already of length `k`). -/
def broadcastTo (l : List ℚ) (k : ℕ) : List ℚ :=
  if l.length = k then l
  else match l with
    | [x] => List.replicate k x
    | _ => l

/-- One term `(o - e)^2 / e` of the chi-square statistic (numpy would
produce NaN/inf on `e = 0`; that case is unreachable in the call sites
modelled here, `0` keeps the function total). -/
def chiTerm (o e : ℚ) : ℚ := if e = 0 then 0 else (o - e) ^ 2 / e

/-- `scipy.stats.chisquare(f_obs, f_exp)` (scipy ≥ 1.10 semantics):
broadcast the two arrays (raising on incompatible shapes), raise when
the observed and expected sums disagree, otherwise return the
goodness-of-fit statistic together with the symbolic p-value
`chi2.sf stat (k - 1)`. -/
def scipyChisquare (fObs fExp : List ℚ) : Except String (ℚ × PVal) :=
  match broadcastLen fObs.length fExp.length with
  | none => Except.error "operands could not be broadcast together"
  | some k =>
    let o := broadcastTo fObs k
    let e := broadcastTo fExp k
    if o.sum = e.sum then
      let chi := (List.zipWith chiTerm o e).sum
      Except.ok (chi, PVal.sf chi (k - 1))
    else
      Except.error "the sum of the observed frequencies must agree with the sum of the expected frequencies"

namespace Adv

/-- `chi_square_test` of `advanced_steganography.py` (lines 62–70) and
`advanced_lsb_detector.py` (lines 68–76), identical in both files:
`expected = [len(flat) / 2] * 2` regardless of how many distinct values
the flattened LSB plane actually has; no exception handling, so a
degenerate input propagates the numpy/scipy error. The argument is the
already-flattened plane (`lsb_plane.flatten()`). -/
def chi_square_test (flat : List ℕ) : Except String (ℚ × PVal) :=
  let counts : List ℚ := (uniqueCounts flat).map (fun c => (c : ℚ))
  let expected : List ℚ := List.replicate 2 ((flat.length : ℚ) / 2)
  scipyChisquare counts expected

end Adv

namespace Media

/-- `chi_square_test` of `advanced_media_steganography.py` (lines 298–308):
`expected = [len(flat) / len(values)] * len(values)`, the whole body
wrapped in `try/except` returning `(0, 1.0)` on any exception (the
`len(values) = 0` case raises `ZeroDivisionError` inside the `try`). -/
def chi_square_test (flat : List ℕ) : ℚ × PVal :=
  let k := (uniqueSorted flat).length
  if k = 0 then (0, PVal.exact 1)
  else
    let counts : List ℚ := (uniqueCounts flat).map (fun c => (c : ℚ))
    let expected : List ℚ := List.replicate k ((flat.length : ℚ) / (k : ℚ))
    match scipyChisquare counts expected with
    | Except.ok r => r
    | Except.error _ => (0, PVal.exact 1)

end Media

/-! ## Bit-Plane Extractor (`extract_lsb_plane`) -/

/-- OpenCV `cv2.cvtColor(·, cv2.COLOR_BGR2GRAY)` on one 8-bit BGR pixel:
the fixed-point luminance transform `(R*4899 + G*9617 + B*1868 + 2^13) >> 14`
(the three coefficients sum to `2^14`, so the result stays in `0..255`). -/
def cvGray (b g r : ℕ) : ℕ := (4899 * r + 9617 * g + 1868 * b + 8192) / 16384

/-- A decoded raster buffer: a 2-D array of BGR pixels. -/
abbrev Raster := List (List (ℕ × ℕ × ℕ))

/-- A numpy image array as dispatched on by `len(image.shape)`:
either a 3-D colour raster or a 2-D grayscale plane. -/
inductive Img where
  | color (x : Raster)
  | gray (p : Plane)
deriving DecidableEq, Repr

/-- Grayscale conversion of a whole raster. -/
def grayOf (x : Raster) : Plane := x.map (List.map (fun px => cvGray px.1 px.2.1 px.2.2))

/-- `gray & 1`: entrywise bitwise AND with 1 of a plane. -/
def land1 (p : Plane) : Plane := p.map (List.map (fun v => v &&& 1))

namespace Media

/-- `extract_lsb_plane` of `advanced_media_steganography.py` (lines 286–296):
colour input is grayscale-converted first, 2-D input is used as is, and the
result is the entrywise `& 1`. (The `except` fallback `np.zeros((50, 50))` is
unreachable for well-formed arrays, which `Img` enforces by construction.) -/
def extract_lsb_plane : Img → Plane
  | Img.color x => land1 (grayOf x)
  | Img.gray p => land1 p

end Media

namespace Adv

/-- `extract_lsb_plane` of `advanced_lsb_detector.py` (lines 60–65) and
`advanced_steganography.py` (lines 54–59): unconditionally calls
`cv2.cvtColor(image, cv2.COLOR_BGR2GRAY)`, which raises an OpenCV assertion
(`scn == 3 || scn == 4`) on a 2-D single-channel array; there is no
exception handler, so the error propagates. -/
def extract_lsb_plane : Img → Except String Plane
  | Img.color x => Except.ok (land1 (grayOf x))
  | Img.gray _ => Except.error "cvtColor: invalid number of channels in input image"

end Adv

/-! ## RS (Regular-Singular) analysis, 2x2-block variant -/

/-- `np.var` of a 2x2 block (mean of squares minus square of the mean;
exact in ℚ, and exact in float64 as well for 8-bit inputs). -/
def var4 (a b c d : ℚ) : ℚ :=
  (a ^ 2 + b ^ 2 + c ^ 2 + d ^ 2) / 4 - ((a + b + c + d) / 4) ^ 2

/-- `gray[i][j]` with numpy-style in-bounds access (0 outside, never hit for
the rectangular arrays numpy produces). -/
def entryAt (g : Plane) (i j : ℕ) : ℕ := (g.getD i []).getD j 0

/-- Variance of the 2x2 block at `(i, j)` and of the same block after XOR
with the mask `[[0, 0], [0, 1]]` (only the bottom-right entry flips). -/
def blockVars (g : Plane) (i j : ℕ) : ℚ × ℚ :=
  let a : ℚ := entryAt g i j
  let b : ℚ := entryAt g i (j + 1)
  let c : ℚ := entryAt g (i + 1) j
  let d : ℕ := entryAt g (i + 1) (j + 1)
  (var4 a b c (d : ℚ), var4 a b c ((d ^^^ 1 : ℕ) : ℚ))

/-- Number of columns of a numpy 2-D array (`gray.shape[1]`). -/
def planeCols (g : Plane) : ℕ := (g.headD []).length

/-- The top-left corners visited by the two nested loops
`for i in range(0, rows - 1, 2): for j in range(0, cols - 1, 2)`:
`range(0, n - 1, 2)` has exactly `n / 2` elements `0, 2, 4, ...`, and every
visited block is a full 2x2 block (so the `block.shape != (2, 2): continue`
guard in the source never fires). -/
def rsIndices (g : Plane) : List (ℕ × ℕ) :=
  ((List.range (g.length / 2)).map (2 * ·)).flatMap
    (fun i => ((List.range (planeCols g / 2)).map (2 * ·)).map (fun j => (i, j)))

namespace Adv

/-- `rs_analysis` of `advanced_steganography.py` (lines 73–99) and
`advanced_lsb_detector.py` (lines 79–105), identical in both files: classify
each 2x2 block as regular (flipping raises the variance) or singular
(flipping lowers it), and return the two fractions over all blocks,
`(0, 0)` when there is no block. -/
def rs_analysis (g : Plane) : ℚ × ℚ :=
  let idx := rsIndices g
  let total := idx.length
  let regular := idx.countP (fun p => decide ((blockVars g p.1 p.2).2 > (blockVars g p.1 p.2).1))
  let singular := idx.countP (fun p => decide ((blockVars g p.1 p.2).2 < (blockVars g p.1 p.2).1))
  (if total = 0 then 0 else (regular : ℚ) / (total : ℚ),
   if total = 0 then 0 else (singular : ℚ) / (total : ℚ))

/-! ## Indicator-counting Composite Scorer -/

/-- The four indicator conditions shared by `composite_score`
(`advanced_lsb_detector.py` lines 125–143) and the `indicators` sum inside
`analyze_image` (lines 172–182; `advanced_steganography.py` has the same two
code blocks): chi-square p-value below 0.05, LSB entropy above 0.9,
|RS regular − RS singular| below 0.05, histogram slope changes above 100. -/
def indicators (chiP entropy rsReg rsSing slopeChanges : ℚ) : ℕ :=
  (if chiP < 1/20 then 1 else 0) +
  (if entropy > 9/10 then 1 else 0) +
  (if |rsReg - rsSing| < 1/20 then 1 else 0) +
  (if slopeChanges > 100 then 1 else 0)

/-- `composite_score`: suspicious iff at least 3 of the 4 indicators fire. -/
def composite_score (chiP entropy rsReg rsSing slopeChanges : ℚ) : Bool :=
  indicators chiP entropy rsReg rsSing slopeChanges ≥ 3

/-- Python `round(q, 2)` (exact at the values reached here: 0, 0.6, 0.95,
all of which are fixed points of rounding to two decimals). -/
def round2 (q : ℚ) : ℚ := ((round (q * 100) : ℤ) : ℚ) / 100

/-- The `(detected, confidence)` part of the result of `analyze_image`
(`advanced_lsb_detector.py` lines 146–198, `advanced_steganography.py`
lines 140–186), as a function of the five battery statistics:
`confidence = 0.6 + (indicators - 3) * 0.35 / 1.0 if indicators >= 3 else 0.0`
when `composite_score` fired, else `0.0`; then `round(confidence, 2)`.
The metadata fields (`method`, `details`, `notes`) are not modelled. -/
def analyze_image_verdict (chiP entropy rsReg rsSing slopeChanges : ℚ) : Bool × ℚ :=
  let suspicious := composite_score chiP entropy rsReg rsSing slopeChanges
  let confidence :=
    if suspicious then
      let ind := indicators chiP entropy rsReg rsSing slopeChanges
      if ind ≥ 3 then 3/5 + ((ind : ℚ) - 3) * (7/20) / 1 else 0
    else 0
  (suspicious, round2 confidence)

end Adv

/-! ## Media-Type Dispatcher and media analyzers
(`advanced_media_steganography.py`) -/

namespace Media

/-- The verdict dict built by `analyze_audio_lsb` (lines 123–162): the
statistic fields are present only on the success path, the `error` field
only on the failure path. -/
structure AudioVerdict where
  hasSteganography : Bool
  confidence : ℚ
  chiSquareP : Option ℚ
  lsbEntropy : Option ℚ
  error : Option String
deriving DecidableEq, Repr

/-- `analyze_audio_lsb` (lines 123–162), as a function of the outcome of
decoding the file and computing the two sample statistics: either a decode
failure message (the `except` path) or the pair
`(chi_square p-value, LSB entropy)` of the decoded samples.
Source logic: `is_suspicious = chi_p < 0.05 or entropy_val > 0.97`, then a
four-band `if/elif/elif/else` chain assigns confidence 0.9 / 0.7 / 0.5 / 0.3,
and the final `else` branch also resets `is_suspicious = False`. -/
def analyze_audio_lsb : Except String (ℚ × ℚ) → AudioVerdict
  | Except.error e => ⟨false, 0, none, none, some e⟩
  | Except.ok (chiP, entropy) =>
    let suspicious0 := decide (chiP < 1/20 ∨ entropy > 97/100)
    if chiP < 1/100 ∧ entropy > 98/100 then
      ⟨suspicious0, 9/10, some chiP, some entropy, none⟩
    else if chiP < 1/20 ∧ entropy > 97/100 then
      ⟨suspicious0, 7/10, some chiP, some entropy, none⟩
    else if chiP < 1/10 ∧ entropy > 95/100 then
      ⟨suspicious0, 1/2, some chiP, some entropy, none⟩
    else
      ⟨false, 3/10, some chiP, some entropy, none⟩

/-- The per-frame suspicion test of `analyze_video` (line 222):
`chi_p < 0.05 or entropy_val > 0.97`, on the frame's LSB-plane statistics. -/
def frameSuspicious (f : ℚ × ℚ) : Bool := decide (f.1 < 1/20 ∨ f.2 > 97/100)

/-- The piecewise band mapping of `analyze_video` (lines 244–255), from the
suspicious-frame fraction to `(has_steg, confidence)` before the audio blend:
`> 0.5 → 0.7..1.0`, `> 0.3 → 0.5..0.7`, `> 0.1 → 0.3..0.5`, else
`(ratio > 0, ratio * 3.0)`. -/
def videoBandScore (r : ℚ) : Bool × ℚ :=
  if r > 1/2 then (true, 7/10 + (r - 1/2) * (3/5))
  else if r > 3/10 then (true, 1/2 + (r - 3/10) * 2)
  else if r > 1/10 then (true, 3/10 + (r - 1/10) * 2)
  else (decide (r > 0), r * 3)

/-- Input of `analyze_video` after decoding: the list of
`(chi_square p-value, LSB entropy)` statistics of the sampled frames
(empty when `extract_frames_from_video` returned no frames), and the
outcome of the audio-track extraction — `none` when
`extract_audio_from_video` returned `None` or raised, otherwise the
decoded audio statistics handed to `analyze_audio_lsb`. -/
structure VideoInput where
  frames : List (ℚ × ℚ)
  audio : Option (Except String (ℚ × ℚ))
deriving Repr

/-- The verdict dict built by `analyze_video` (lines 198–282); the
`avgChiSquareP` / `avgLsbEntropy` metadata fields are not modelled. -/
structure VideoVerdict where
  hasSteganography : Bool
  confidence : ℚ
  framesAnalyzed : Option ℕ
  suspiciousFrames : Option ℕ
  audioSteganography : Option AudioVerdict
  error : Option String
deriving DecidableEq, Repr

/-- `analyze_video` (lines 198–282): error verdict on a raised exception or
an empty frame list; otherwise count suspicious frames, map the fraction
through `videoBandScore`, analyze the extracted audio track when present,
and if the audio sub-verdict flags detection set `has_steg = True` and blend
`confidence = (confidence * 2 + audio_confidence) / 3`; finally cap the
confidence at 1.0. -/
def analyze_video : Except String VideoInput → VideoVerdict
  | Except.error e => ⟨false, 0, none, none, none, some e⟩
  | Except.ok v =>
    if v.frames = [] then
      ⟨false, 0, none, none, none, some "No frames could be extracted from video"⟩
    else
      let n := v.frames.length
      let suspicious := v.frames.countP frameSuspicious
      let bs := videoBandScore ((suspicious : ℚ) / (n : ℚ))
      let audioResult := v.audio.map analyze_audio_lsb
      let blended : Bool × ℚ :=
        match audioResult with
        | some a => if a.hasSteganography then (true, (bs.2 * 2 + a.confidence) / 3) else bs
        | none => bs
      ⟨blended.1, min blended.2 1, some n, some suspicious, audioResult, none⟩

/-- The verdict dict built by the media-module `analyze_image`
(lines 379–483); the per-statistic echo fields are not modelled. -/
structure ImageVerdict where
  hasSteganography : Bool
  confidence : ℚ
  indicatorScore : Option ℕ
  detectionMethods : List String
  error : Option String
deriving DecidableEq, Repr

/-- The media-module `analyze_image` (lines 379–483), as a function of the
outcome of decoding the buffer and computing the battery statistics
`(chi_p, entropy, rs_regular, rs_singular)` (the ≤ 4-megapixel guard only
chooses which raster is handed to `rs_analysis`, so it is absorbed into the
statistics). Source logic: three graded indicator blocks (chi-square bands
0.001/0.01/0.05 scoring 3/2/1 with confidence increments 0.4/0.3/0.2;
entropy bands 0.98/0.95/0.9 scoring 3/2/1 with 0.3/0.2/0.1; RS-difference
bands 0.05/0.1 scoring 2/1 with 0.2/0.1); `has_steganography =
indicator_score >= 3`; `confidence = min(0.3 + confidence_score, 1.0)` when
the accumulated score is positive, else `0`. -/
def analyze_image : Except String (ℚ × ℚ × ℚ × ℚ) → ImageVerdict
  | Except.error e => ⟨false, 0, none, [], some e⟩
  | Except.ok (chiP, entropy, rsReg, rsSing) =>
    let chi : ℕ × ℚ × List String :=
      if chiP < 1/1000 then (3, 2/5, ["Chi-Square Test"])
      else if chiP < 1/100 then (2, 3/10, ["Chi-Square Test"])
      else if chiP < 1/20 then (1, 1/5, ["Chi-Square Test"])
      else (0, 0, [])
    let ent : ℕ × ℚ × List String :=
      if entropy > 98/100 then (3, 3/10, ["Entropy Analysis"])
      else if entropy > 95/100 then (2, 1/5, ["Entropy Analysis"])
      else if entropy > 9/10 then (1, 1/10, ["Entropy Analysis"])
      else (0, 0, [])
    let rsDiff := |rsReg - rsSing|
    let rs : ℕ × ℚ × List String :=
      if rsDiff < 1/20 then (2, 1/5, ["RS Analysis"])
      else if rsDiff < 1/10 then (1, 1/10, ["RS Analysis"])
      else (0, 0, [])
    let score := chi.1 + ent.1 + rs.1
    let confSum := chi.2.1 + ent.2.1 + rs.2.1
    let confidence := if confSum > 0 then min (3/10 + confSum) 1 else confSum
    ⟨score ≥ 3, confidence, some score, chi.2.2 ++ ent.2.2 ++ rs.2.2, none⟩

/-- The audio extension set of `detect_media_steganography` (line 503). -/
def audioExts : List String := [".mp3", ".wav", ".aac", ".flac", ".ogg", ".amr"]

/-- The video extension set of `detect_media_steganography` (line 509). -/
def videoExts : List String := [".mp4", ".avi", ".mkv", ".mov", ".webm", ".flv"]

/-- The image extension set of `detect_media_steganography` (line 515). -/
def imageExts : List String :=
  [".jpg", ".jpeg", ".png", ".gif", ".webp", ".bmp", ".tiff", ".tif", ".ico",
   ".heic", ".heif", ".svg", ".avif"]

/-- A media file as seen by the dispatcher: for each analysis path, the
input that path's analyzer would receive after decoding the raw bytes.
Only the branch selected by the extension is ever consumed. -/
structure MediaFile where
  audioInput : Except String (ℚ × ℚ)
  videoInput : Except String VideoInput
  imageInput : Except String (ℚ × ℚ × ℚ × ℚ)

/-- The (tagged) result dict of `detect_media_steganography`: the selected
analyzer's verdict with a `mediaType` tag, the constant
unknown-media-type verdict, or the outer-exception verdict (lines 538–545). -/
inductive MediaResult where
  | audio (a : AudioVerdict)
  | video (v : VideoVerdict)
  | image (i : ImageVerdict)
  | unknown (e : String)
  | failed (e : String)
deriving DecidableEq, Repr

/-- The `hasSteganography` field of a dispatcher result. -/
def MediaResult.detectedOf : MediaResult → Bool
  | audio a => a.hasSteganography
  | video v => v.hasSteganography
  | image i => i.hasSteganography
  | unknown _ => false
  | failed _ => false

/-- The `confidence` field of a dispatcher result. -/
def MediaResult.confidenceOf : MediaResult → ℚ
  | audio a => a.confidence
  | video v => v.confidence
  | image i => i.confidence
  | unknown _ => 0
  | failed _ => 0

/-- The optional `error` field of a dispatcher result. -/
def MediaResult.errorOf : MediaResult → Option String
  | audio a => a.error
  | video v => v.error
  | image i => i.error
  | unknown e => some e
  | failed e => some e

/-- `detect_media_steganography` (lines 485–536): dispatch on the lowercased
extension against the three fixed sets; an extension in none of them yields
the constant unsupported-format verdict without touching the file data. -/
def detect_media_steganography (ext : String) (f : MediaFile) : MediaResult :=
  if ext ∈ audioExts then MediaResult.audio (analyze_audio_lsb f.audioInput)
  else if ext ∈ videoExts then MediaResult.video (analyze_video f.videoInput)
  else if ext ∈ imageExts then MediaResult.image (analyze_image f.imageInput)
  else MediaResult.unknown ("Unsupported file format: " ++ ext)

/-- `detect_media_steganography` together with its outer `try/except`
(lines 496, 538–545): a raised exception yields the
`"Analysis failed: ..."` verdict. -/
def detect_media_entry : Except String (String × MediaFile) → MediaResult
  | Except.error e => MediaResult.failed ("Analysis failed: " ++ e)
  | Except.ok (ext, f) => detect_media_steganography ext f

end Media

/-! ## Multi-Method Aggregator (`steganography_service.py`) -/

namespace StegService

/-- One sub-method result dict stored in `detailsByMethod`: every field is
optional because the error records produced by the `except` blocks at lines
61–70 carry only an `error` key, while the detector functions themselves
return `detected`/`confidence` (plus `error` on their internal catch). -/
structure SubResult where
  detected : Option Bool
  confidence : Option ℚ
  error : Option String
deriving DecidableEq, Repr

/-- The top-level result dict of `detect_steganography`
(`detailsByMethod` itself is not modelled beyond the aggregation). -/
structure AggVerdict where
  hasSteganography : Bool
  confidence : ℚ
  detectionMethods : List String
  error : Option String
deriving DecidableEq, Repr

/-- The weight a method's confidence receives in the average (lines 82–90):
`lsb_analysis` counts double, every other method once. -/
def weightOf (name : String) : ℚ := if name = "lsb_analysis" then 2 else 1

/-- The aggregation loops of `detect_steganography` (lines 72–93) over the
`detailsByMethod` entries: `hasSteganography` is the OR of
`result.get("detected", False)`; the confidence sum and weight count
accumulate exactly over the entries that have a `confidence` key, and the
overall confidence is their quotient (0 when no entry counted). -/
def aggregate (ms : List (String × SubResult)) : AggVerdict :=
  let detected := ms.any (fun m => m.2.detected.getD false)
  let methods := (ms.filter (fun m => m.2.detected.getD false)).map (fun m => m.1)
  let confidenceSum := ms.foldl
    (fun acc m => match m.2.confidence with
      | some c => acc + weightOf m.1 * c
      | none => acc) 0
  let methodsCount := ms.foldl
    (fun acc m => match m.2.confidence with
      | some _ => acc + weightOf m.1
      | none => acc) 0
  ⟨detected, if methodsCount > 0 then confidenceSum / methodsCount else 0, methods, none⟩

/-- The result shape of `detect_lsb` (lines 113–210) as a function of its
outcome: success gives `{detected, confidence}` with no error key, the
internal catch gives `{detected: False, confidence: 0.0, error}`. -/
def detect_lsb_result : Except String (Bool × ℚ) → SubResult
  | Except.error e => ⟨some false, some 0, some e⟩
  | Except.ok (d, c) => ⟨some d, some c, none⟩

/-- The result shape of `detect_stegexpose` (lines 212–258) and
`detect_openstego` (lines 260–297): both catch internally and return
`{detected: False, confidence: 0.0, error}` on failure, and
`{detected, confidence}` without an error key on success. -/
def tool_result : Except String (Bool × ℚ) → SubResult
  | Except.error e => ⟨some false, some 0, some e⟩
  | Except.ok (d, c) => ⟨some d, some c, none⟩

/-- Input of `detect_steganography` after the external effects: the outcome
of each of the three detectors. -/
structure ServiceInput where
  lsb : Except String (Bool × ℚ)
  stegexpose : Except String (Bool × ℚ)
  openstego : Except String (Bool × ℚ)

/-- `detect_steganography` (lines 28–111): run `detect_lsb`; run the two
external tools only when its confidence is below 0.8 (lines 56–70);
aggregate; the outer `except` (lines 104–111) yields the error verdict. -/
def detect_steganography : Except String ServiceInput → AggVerdict
  | Except.error e => ⟨false, 0, [], some e⟩
  | Except.ok s =>
    let lsbR := detect_lsb_result s.lsb
    let tools :=
      if lsbR.confidence.getD 0 < 4/5 then
        [("stegexpose", tool_result s.stegexpose), ("openstego", tool_result s.openstego)]
      else []
    aggregate (("lsb_analysis", lsbR) :: tools)

/-- Modelled from the claim/spec wording (for comparison with `aggregate`,
which is translated from the source): overall confidence as the weighted
average of the confidences of the sub-results that did NOT record an
`error` field, with `lsb_analysis` weighted double. -/
def aggregateConfidenceClaim (ms : List (String × SubResult)) : ℚ :=
  let ok := ms.filter (fun m => m.2.error = none)
  let w := (ok.map (fun m => weightOf m.1)).sum
  if w > 0 then (ok.map (fun m => weightOf m.1 * m.2.confidence.getD 0)).sum / w else 0

end StegService

/-! ## General helper lemmas -/

theorem countP_replicate_eq (p : α → Bool) (n : ℕ) (a : α) :
    (List.replicate n a).countP p = if p a then n else 0 := by
  induction n with
  | zero => simp
  | succ k ih => simp [List.replicate_succ, List.countP_cons, ih]; split <;> simp

theorem countP_add_countP_le_length (l : List α) (p q : α → Bool)
    (h : ∀ x ∈ l, ¬(p x = true ∧ q x = true)) :
    l.countP p + l.countP q ≤ l.length := by
  induction l with
  | nil => simp
  | cons x t ih =>
    have hx := h x (List.mem_cons_self x t)
    have ht : ∀ y ∈ t, ¬(p y = true ∧ q y = true) :=
      fun y hy => h y (List.mem_cons_of_mem x hy)
    have := ih ht
    simp only [List.countP_cons, List.length_cons]
    by_cases hp : p x <;> by_cases hq : q x <;> simp_all <;> omega

theorem land1_land1 (v : ℕ) : (v &&& 1) &&& 1 = v &&& 1 := by
  simp [Nat.and_one_is_mod, Nat.mod_mod_of_dvd v (dvd_refl 2)]

theorem land1_idem (p : Plane) : land1 (land1 p) = land1 p := by
  simp [land1, List.map_map, Function.comp_def, land1_land1]

theorem dedup_replicate_succ (n : ℕ) (c : ℕ) :
    (List.replicate (n + 1) c).dedup = [c] :=
  List.replicate_dedup (Nat.succ_ne_zero n)

theorem uniqueCounts_replicate_succ (n : ℕ) (c : ℕ) :
    uniqueCounts (List.replicate (n + 1) c) = [n + 1] := by
  simp [uniqueCounts, uniqueSorted, sortNat, dedup_replicate_succ, insertSorted,
    List.count_replicate_self]

/-! ## Claim C1: indicator-counting Composite Scorer at exactly 3 of 4
indicators -/

/-- **C1.** For every combination of battery statistics for which exactly 3
of the 4 indicator conditions hold (chi-square p < 0.05, LSB entropy > 0.9,
|RS regular − RS singular| < 0.05, histogram slope changes > 100), the
indicator-counting scorer of `analyze_image` reports `detected = true` with
confidence exactly the base value 0.6 = 3/5 (zero indicator bonus). -/
theorem C1_composite_three_indicators (chiP entropy rsReg rsSing slope : ℚ)
    (h : Adv.indicators chiP entropy rsReg rsSing slope = 3) :
    Adv.analyze_image_verdict chiP entropy rsReg rsSing slope = (true, 3/5) := by
  unfold Adv.analyze_image_verdict Adv.composite_score
  rw [h]
  norm_num [Adv.round2]

/-- Witness for C1 at the concrete statistics
`(chi_p, entropy, rs_reg, rs_sing, slope) = (0, 1, 0, 1, 200)`:
indicators 1, 2 and 4 fire, indicator 3 does not. -/
theorem C1_witness :
    Adv.indicators 0 1 0 1 200 = 3 ∧
    Adv.analyze_image_verdict 0 1 0 1 200 = (true, 3/5) :=
  ⟨by norm_num [Adv.indicators],
   C1_composite_three_indicators 0 1 0 1 200 (by norm_num [Adv.indicators])⟩

/-! ## Claim C2: audio detection rule -/

/-- **C2, counterexample.** At `chi_p = 1/25` and `entropy = 0` — a sample
sequence with a mildly imbalanced, low-entropy LSB stream — the chi-square
p-value is below 0.05, so the claimed rule
`detected ⟺ (chi_p < 0.05 ∨ entropy > 0.97)` demands `detected = true`; the
code's final `else` branch (`confidence = 0.3`) resets
`is_suspicious = False`, so the verdict is not detected. -/
theorem C2_counterexample :
    ((1 : ℚ)/25 < 1/20 ∨ (0 : ℚ) > 97/100) ∧
    (Media.analyze_audio_lsb (Except.ok (1/25, 0))).hasSteganography = false := by
  constructor
  · left; norm_num
  · norm_num [Media.analyze_audio_lsb]

/-- **C2, amended.** For every successfully decoded sample sequence the audio
verdict has `detected = true` iff `(chi_p < 0.05 ∨ entropy > 0.97)` AND the
fallback band is not reached, i.e. additionally `chi_p < 0.1 ∧ entropy >
0.95`; the confidence is the four-band value 0.9 / 0.7 / 0.5 / 0.3 assigned
by the `if/elif/elif/else` chain. -/
theorem C2_audio_rule (chiP entropy : ℚ) :
    ((Media.analyze_audio_lsb (Except.ok (chiP, entropy))).hasSteganography = true ↔
      ((chiP < 1/20 ∨ entropy > 97/100) ∧ chiP < 1/10 ∧ entropy > 95/100)) ∧
    (Media.analyze_audio_lsb (Except.ok (chiP, entropy))).confidence =
      (if chiP < 1/100 ∧ entropy > 98/100 then 9/10
       else if chiP < 1/20 ∧ entropy > 97/100 then 7/10
       else if chiP < 1/10 ∧ entropy > 95/100 then 1/2
       else 3/10) := by
  simp only [Media.analyze_audio_lsb]
  split_ifs with h1 h2 h3
  · refine ⟨?_, rfl⟩
    simp only [decide_eq_true_eq]
    exact ⟨fun hOr => ⟨hOr, by linarith [h1.1], by linarith [h1.2]⟩, fun h => h.1⟩
  · refine ⟨?_, rfl⟩
    simp only [decide_eq_true_eq]
    exact ⟨fun hOr => ⟨hOr, by linarith [h2.1], by linarith [h2.2]⟩, fun h => h.1⟩
  · refine ⟨?_, rfl⟩
    simp only [decide_eq_true_eq]
    exact ⟨fun hOr => ⟨hOr, h3.1, h3.2⟩, fun h => h.1⟩
  · refine ⟨?_, rfl⟩
    simp only [Bool.false_eq_true, false_iff]
    intro h
    exact h3 h.2

/-- Witness for C2 applying the amended rule at `(chi_p, entropy) =
(1/200, 99/100)` (both thresholds exceeded strongly: band 0.9). -/
theorem C2_witness :
    (Media.analyze_audio_lsb (Except.ok (1/200, 99/100))).hasSteganography = true ∧
    (Media.analyze_audio_lsb (Except.ok (1/200, 99/100))).confidence = 9/10 := by
  have h := C2_audio_rule (1/200) (99/100)
  refine ⟨h.1.mpr (by norm_num), ?_⟩
  rw [h.2]
  norm_num

/-! ## Claim C3: degenerate inputs to the statistical tests -/

/-- **C3, counterexample.** On the empty array the `chi_square_test` of
`advanced_steganography.py`/`advanced_lsb_detector.py` raises instead of
returning a fallback: `np.unique` yields 0 counts while `expected` always
has 2 entries, and numpy cannot broadcast shapes `(0,)` and `(2,)`. -/
theorem C3_counterexample :
    Adv.chi_square_test [] = Except.error "operands could not be broadcast together" := rfl

/-- **C3, amended.** The media-module `chi_square_test` degrades gracefully
on every degenerate input — `(0, 1.0)` on the empty array (the internal
`ZeroDivisionError` is caught), and a defined `(0, chi2.sf 0 0)` pair on a
constant array — while the advanced-module `chi_square_test` raises on every
constant array (observed sum `2·(n+1)` cannot match expected sum `n+1`;
scipy ≥ 1.10 rejects mismatched sums) just as it raises on the empty array. -/
theorem C3_degenerate_inputs :
    Media.chi_square_test [] = (0, PVal.exact 1) ∧
    (∀ (n c : ℕ), Media.chi_square_test (List.replicate (n + 1) c) = (0, PVal.sf 0 0)) ∧
    (∀ (n c : ℕ), Adv.chi_square_test (List.replicate (n + 1) c) =
      Except.error "the sum of the observed frequencies must agree with the sum of the expected frequencies") := by
  refine ⟨rfl, ?_, ?_⟩
  · intro n c
    have hu : uniqueSorted (List.replicate (n + 1) c) = [c] := by
      simp [uniqueSorted, sortNat, dedup_replicate_succ, insertSorted]
    have hne : ((n : ℚ) + 1) ≠ 0 := by positivity
    simp [Media.chi_square_test, hu, uniqueCounts_replicate_succ, scipyChisquare,
      broadcastLen, broadcastTo, chiTerm, List.length_replicate, hne]
  · intro n c
    have hne : ((n : ℚ) + 1) ≠ 0 := by positivity
    unfold Adv.chi_square_test
    rw [uniqueCounts_replicate_succ]
    simp [scipyChisquare, broadcastLen, broadcastTo, List.length_replicate]
    intro habs
    exact absurd habs (by intro habs2; apply hne; linarith)

/-- Witness for C3 applying the amended statement at the concrete constant
array `[7, 7, 7]`. -/
theorem C3_witness :
    Media.chi_square_test (List.replicate 3 7) = (0, PVal.sf 0 0) ∧
    Adv.chi_square_test (List.replicate 3 7) =
      Except.error "the sum of the observed frequencies must agree with the sum of the expected frequencies" :=
  ⟨C3_degenerate_inputs.2.1 2 7, C3_degenerate_inputs.2.2 2 7⟩

/-! ## Claim C4: Multi-Method Aggregator -/

theorem weightOf_lsb : StegService.weightOf "lsb_analysis" = 2 := by
  simp [StegService.weightOf]

theorem weightOf_stegexpose : StegService.weightOf "stegexpose" = 1 := by
  rw [StegService.weightOf, if_neg (by decide)]

theorem weightOf_openstego : StegService.weightOf "openstego" = 1 := by
  rw [StegService.weightOf, if_neg (by decide)]

theorem aggregate_foldl_sum (ms : List (String × StegService.SubResult)) (a : ℚ) :
    ms.foldl (fun acc m => match m.2.confidence with
      | some c => acc + StegService.weightOf m.1 * c
      | none => acc) a =
    a + ((ms.filter (fun m => m.2.confidence.isSome)).map
      (fun m => StegService.weightOf m.1 * m.2.confidence.getD 0)).sum := by
  induction ms generalizing a with
  | nil => simp
  | cons x t ih =>
    cases hx : x.2.confidence with
    | none => simp [List.foldl_cons, hx, List.filter_cons, ih]
    | some c =>
      simp [List.foldl_cons, hx, List.filter_cons, ih]
      ring

theorem aggregate_foldl_weight (ms : List (String × StegService.SubResult)) (a : ℚ) :
    ms.foldl (fun acc m => match m.2.confidence with
      | some _ => acc + StegService.weightOf m.1
      | none => acc) a =
    a + ((ms.filter (fun m => m.2.confidence.isSome)).map
      (fun m => StegService.weightOf m.1)).sum := by
  induction ms generalizing a with
  | nil => simp
  | cons x t ih =>
    cases hx : x.2.confidence with
    | none => simp [List.foldl_cons, hx, List.filter_cons, ih]
    | some c =>
      simp [List.foldl_cons, hx, List.filter_cons, ih]
      ring

theorem any_eq_any_filter (ms : List (String × StegService.SubResult))
    (h : ∀ m ∈ ms, m.2.error.isSome → ¬ m.2.detected = some true) :
    ms.any (fun m => m.2.detected.getD false) =
    (ms.filter (fun m => m.2.error = none)).any (fun m => m.2.detected.getD false) := by
  induction ms with
  | nil => rfl
  | cons x t ih =>
    have hx := h x (List.mem_cons_self x t)
    have ht : ∀ y ∈ t, y.2.error.isSome → ¬ y.2.detected = some true :=
      fun y hy => h y (List.mem_cons_of_mem x hy)
    cases he : x.2.error with
    | none => simp [List.any_cons, List.filter_cons, he, ih ht]
    | some e =>
      have hdx : x.2.detected.getD false = false := by
        cases hd : x.2.detected with
        | none => rfl
        | some b =>
          cases b with
          | false => rfl
          | true => exact absurd hd (hx (by simp [he]))
      simp [List.any_cons, List.filter_cons, he, hdx, ih ht]

/-- **C4, counterexample.** With the LSB battery at confidence 0.7 (below the
0.8 short-circuit, so the tools run), StegExpose failing — which its internal
catch records as `{detected: False, confidence: 0.0, error: ...}` — and
OpenStego at confidence 0.5, the service reports
`(0.7·2 + 0.0·1 + 0.5·1) / 4 = 19/40 = 0.475`: the errored sub-result IS
included in the average, whereas the claimed
errored-results-excluded average is `(0.7·2 + 0.5·1) / 3 = 19/30 ≈ 0.633`. -/
theorem C4_counterexample :
    (StegService.detect_steganography (Except.ok
      ⟨Except.ok (false, 7/10), Except.error "StegExpose failed",
       Except.ok (false, 1/2)⟩)).confidence = 19/40 ∧
    StegService.aggregateConfidenceClaim
      [("lsb_analysis", ⟨some false, some (7/10), none⟩),
       ("stegexpose", ⟨some false, some 0, some "StegExpose failed"⟩),
       ("openstego", ⟨some false, some (1/2), none⟩)] = 19/30 ∧
    (19/40 : ℚ) ≠ 19/30 := by
  refine ⟨?_, ?_, by norm_num⟩
  · simp only [StegService.detect_steganography, StegService.detect_lsb_result,
      StegService.tool_result, StegService.aggregate]
    norm_num [weightOf_lsb, weightOf_stegexpose, weightOf_openstego]
  · simp only [StegService.aggregateConfidenceClaim]
    norm_num [weightOf_lsb, weightOf_stegexpose, weightOf_openstego,
      List.filter_cons, List.filter_nil, Option.some_ne_none]

/-- **C4, amended.** For every list of sub-method results in which no errored
entry claims detection (the shape all three detectors produce), the overall
detected flag is the OR of the detected flags of the non-errored sub-results,
and the overall confidence is the weighted average — LSB battery doubled —
over the sub-results that carry a `confidence` value: this includes errored
tool sub-results (recorded with confidence 0.0, lowering the average);
only sub-results lacking a `confidence` key are excluded. -/
theorem C4_aggregator_rule (ms : List (String × StegService.SubResult))
    (h : ∀ m ∈ ms, m.2.error.isSome → ¬ m.2.detected = some true) :
    (StegService.aggregate ms).hasSteganography =
      (ms.filter (fun m => m.2.error = none)).any (fun m => m.2.detected.getD false) ∧
    (StegService.aggregate ms).confidence =
      (if 0 < ((ms.filter (fun m => m.2.confidence.isSome)).map
                (fun m => StegService.weightOf m.1)).sum
       then ((ms.filter (fun m => m.2.confidence.isSome)).map
              (fun m => StegService.weightOf m.1 * m.2.confidence.getD 0)).sum /
            ((ms.filter (fun m => m.2.confidence.isSome)).map
              (fun m => StegService.weightOf m.1)).sum
       else 0) := by
  constructor
  · exact any_eq_any_filter ms h
  · show (if (0:ℚ) < ms.foldl _ 0 then ms.foldl _ 0 / ms.foldl _ 0 else 0) = _
    rw [aggregate_foldl_sum, aggregate_foldl_weight]
    simp

/-- Witness for C4 applying the amended rule to a concrete two-entry method
list (LSB detected with confidence 0.5, StegExpose errored). -/
theorem C4_witness :
    (StegService.aggregate [("lsb_analysis", ⟨some true, some (1/2), none⟩),
      ("stegexpose", ⟨some false, some 0, some "e"⟩)]).hasSteganography = true ∧
    (StegService.aggregate [("lsb_analysis", ⟨some true, some (1/2), none⟩),
      ("stegexpose", ⟨some false, some 0, some "e"⟩)]).confidence = 1/3 := by
  have h := C4_aggregator_rule
    [("lsb_analysis", ⟨some true, some (1/2), none⟩),
     ("stegexpose", ⟨some false, some 0, some "e"⟩)]
    (by intro m hm; fin_cases hm <;> simp)
  refine ⟨?_, ?_⟩
  · rw [h.1]; simp
  · rw [h.2]
    norm_num [weightOf_lsb, weightOf_stegexpose]

/-! ## Claim C5: video band mapping at 8 of 24 suspicious frames -/

/-- **C5.** For every sampled frame-statistics sequence of 24 frames of which
exactly 8 are flagged suspicious (ratio 1/3) and whose audio sub-analysis
does not flag detection, the video verdict's confidence is exactly
`0.5 + (1/3 - 0.3) * 2.0 = 17/30 ≈ 0.567`, inside the open 0.5–0.7 band. -/
theorem C5_video_one_third_band (frames : List (ℚ × ℚ))
    (audio : Option (Except String (ℚ × ℚ)))
    (hlen : frames.length = 24)
    (hsusp : frames.countP Media.frameSuspicious = 8)
    (haudio : ∀ a, audio = some a → (Media.analyze_audio_lsb a).hasSteganography = false) :
    (Media.analyze_video (Except.ok ⟨frames, audio⟩)).confidence = 17/30 ∧
    (1:ℚ)/2 < 17/30 ∧ (17:ℚ)/30 < 7/10 ∧
    (17:ℚ)/30 = 1/2 + ((8:ℚ)/24 - 3/10) * 2 := by
  have hne : frames ≠ [] := by
    intro h
    rw [h] at hlen
    exact absurd hlen (by norm_num)
  refine ⟨?_, by norm_num, by norm_num, by norm_num⟩
  have hbs : Media.videoBandScore
      ((frames.countP Media.frameSuspicious : ℚ) / (frames.length : ℚ)) = (true, 17/30) := by
    rw [hsusp, hlen]
    norm_num [Media.videoBandScore]
  cases audio with
  | none =>
    simp only [Media.analyze_video, if_neg hne, hbs]
    norm_num
  | some a =>
    simp only [Media.analyze_video, if_neg hne, hbs, Option.map_some']
    rw [haudio a rfl]
    norm_num

/-- Witness for C5 at 8 strongly suspicious frames (entropy 1) followed by
16 unsuspicious frames (chi-square p-value 1, entropy 0), no audio track. -/
theorem C5_witness :
    (Media.analyze_video (Except.ok
      ⟨List.replicate 8 ((0:ℚ), (1:ℚ)) ++ List.replicate 16 ((1:ℚ), (0:ℚ)),
       none⟩)).confidence = 17/30 := by
  have h := C5_video_one_third_band
    (List.replicate 8 ((0:ℚ), (1:ℚ)) ++ List.replicate 16 ((1:ℚ), (0:ℚ))) none
    (by simp)
    (by
      rw [List.countP_append, countP_replicate_eq, countP_replicate_eq]
      norm_num [Media.frameSuspicious])
    (by intro a ha; cases ha)
  exact h.1

/-! ## Claim C6: unknown extension short-circuits the dispatcher -/

/-- **C6.** For every input whose lowercased extension is in none of the
three fixed extension sets, the dispatcher returns the constant
unknown-media-type verdict — `detected = false`, `confidence = 0` — and the
result does not depend on the file's decoded content in any way (no
analysis path is consulted). -/
theorem C6_unknown_extension (ext : String) (f g : Media.MediaFile)
    (h1 : ext ∉ Media.audioExts) (h2 : ext ∉ Media.videoExts)
    (h3 : ext ∉ Media.imageExts) :
    Media.detect_media_steganography ext f =
      Media.MediaResult.unknown ("Unsupported file format: " ++ ext) ∧
    (Media.detect_media_steganography ext f).detectedOf = false ∧
    (Media.detect_media_steganography ext f).confidenceOf = 0 ∧
    Media.detect_media_steganography ext f = Media.detect_media_steganography ext g := by
  have he : ∀ m : Media.MediaFile, Media.detect_media_steganography ext m =
      Media.MediaResult.unknown ("Unsupported file format: " ++ ext) := by
    intro m
    unfold Media.detect_media_steganography
    rw [if_neg h1, if_neg h2, if_neg h3]
  refine ⟨he f, ?_, ?_, ?_⟩
  · rw [he f]; rfl
  · rw [he f]; rfl
  · rw [he f, he g]

/-- Witness for C6 at the extension `".txt"` and two media files with
entirely different decoded content. -/
theorem C6_witness :
    Media.detect_media_steganography ".txt"
      ⟨Except.error "x", Except.error "y", Except.error "z"⟩ =
      Media.MediaResult.unknown "Unsupported file format: .txt" ∧
    Media.detect_media_steganography ".txt"
      ⟨Except.error "x", Except.error "y", Except.error "z"⟩ =
    Media.detect_media_steganography ".txt"
      ⟨Except.ok (0, 1), Except.ok ⟨[(0, 1)], none⟩, Except.ok (0, 1, 0, 0)⟩ := by
  have h := C6_unknown_extension ".txt"
    ⟨Except.error "x", Except.error "y", Except.error "z"⟩
    ⟨Except.ok (0, 1), Except.ok ⟨[(0, 1)], none⟩, Except.ok (0, 1, 0, 0)⟩
    (by decide) (by decide) (by decide)
  exact ⟨h.1, h.2.2.2⟩

/-! ## Claim C7: error field implies not-detected, zero confidence -/

theorem audio_error_invariant (inp : Except String (ℚ × ℚ)) :
    (Media.analyze_audio_lsb inp).error ≠ none →
    (Media.analyze_audio_lsb inp).hasSteganography = false ∧
    (Media.analyze_audio_lsb inp).confidence = 0 := by
  cases inp with
  | error e => intro _; exact ⟨rfl, rfl⟩
  | ok p =>
    obtain ⟨cp, ev⟩ := p
    intro hyp
    exfalso
    apply hyp
    simp only [Media.analyze_audio_lsb]
    split_ifs <;> rfl

theorem image_error_invariant (inp : Except String (ℚ × ℚ × ℚ × ℚ)) :
    (Media.analyze_image inp).error ≠ none →
    (Media.analyze_image inp).hasSteganography = false ∧
    (Media.analyze_image inp).confidence = 0 := by
  cases inp with
  | error e => intro _; exact ⟨rfl, rfl⟩
  | ok p =>
    obtain ⟨cp, ev, rg, rs⟩ := p
    intro hyp
    exfalso
    apply hyp
    simp only [Media.analyze_image]

theorem video_error_invariant (vin : Except String Media.VideoInput) :
    (Media.analyze_video vin).error ≠ none →
    (Media.analyze_video vin).hasSteganography = false ∧
    (Media.analyze_video vin).confidence = 0 := by
  cases vin with
  | error e => intro _; exact ⟨rfl, rfl⟩
  | ok v =>
    by_cases hf : v.frames = []
    · intro _
      exact ⟨by simp [Media.analyze_video, hf], by simp [Media.analyze_video, hf]⟩
    · intro hyp
      exfalso
      apply hyp
      simp only [Media.analyze_video, if_neg hf]

theorem aggregate_error_none (ms : List (String × StegService.SubResult)) :
    (StegService.aggregate ms).error = none := rfl

/-- **C7.** For every input, if the verdict returned by one of the public
analysis entry points (`detect_media_steganography` with its outer handler,
`analyze_video`, and the service-level `detect_steganography`) carries an
`error` field, then that verdict's detected flag is `false` and its
confidence is `0`. -/
theorem C7_error_convention :
    (∀ inp, (Media.detect_media_entry inp).errorOf ≠ none →
      (Media.detect_media_entry inp).detectedOf = false ∧
      (Media.detect_media_entry inp).confidenceOf = 0) ∧
    (∀ vin, (Media.analyze_video vin).error ≠ none →
      (Media.analyze_video vin).hasSteganography = false ∧
      (Media.analyze_video vin).confidence = 0) ∧
    (∀ si, (StegService.detect_steganography si).error ≠ none →
      (StegService.detect_steganography si).hasSteganography = false ∧
      (StegService.detect_steganography si).confidence = 0) := by
  refine ⟨?_, video_error_invariant, ?_⟩
  · intro inp
    cases inp with
    | error e => intro _; exact ⟨rfl, rfl⟩
    | ok p =>
      obtain ⟨ext, f⟩ := p
      simp only [Media.detect_media_entry, Media.detect_media_steganography]
      split_ifs with h1 h2 h3
      · simp only [Media.MediaResult.errorOf, Media.MediaResult.detectedOf,
          Media.MediaResult.confidenceOf]
        exact audio_error_invariant f.audioInput
      · simp only [Media.MediaResult.errorOf, Media.MediaResult.detectedOf,
          Media.MediaResult.confidenceOf]
        exact video_error_invariant f.videoInput
      · simp only [Media.MediaResult.errorOf, Media.MediaResult.detectedOf,
          Media.MediaResult.confidenceOf]
        exact image_error_invariant f.imageInput
      · intro _; exact ⟨rfl, rfl⟩
  · intro si
    cases si with
    | error e => intro _; exact ⟨rfl, rfl⟩
    | ok s =>
      intro hyp
      exact absurd (aggregate_error_none _) hyp

/-- Witness for C7 at concrete failing inputs for each entry point. -/
theorem C7_witness :
    (Media.detect_media_entry (Except.error "decode failure")).detectedOf = false ∧
    (Media.detect_media_entry (Except.error "decode failure")).confidenceOf = 0 ∧
    (Media.analyze_video (Except.error "corrupt container")).hasSteganography = false ∧
    (Media.analyze_video (Except.error "corrupt container")).confidence = 0 ∧
    (StegService.detect_steganography (Except.error "temp file failure")).hasSteganography = false ∧
    (StegService.detect_steganography (Except.error "temp file failure")).confidence = 0 := by
  obtain ⟨h1, h2, h3⟩ := C7_error_convention
  exact ⟨(h1 _ (by simp [Media.detect_media_entry, Media.MediaResult.errorOf])).1,
         (h1 _ (by simp [Media.detect_media_entry, Media.MediaResult.errorOf])).2,
         (h2 _ (by simp [Media.analyze_video])).1,
         (h2 _ (by simp [Media.analyze_video])).2,
         (h3 _ (by simp [StegService.detect_steganography])).1,
         (h3 _ (by simp [StegService.detect_steganography])).2⟩

/-! ## Claim C8: Bit-Plane Extractor purity and idempotence -/

theorem entryAt_land1 (p : Plane) (i j : ℕ) :
    entryAt (land1 p) i j = entryAt p i j &&& 1 := by
  unfold entryAt land1
  simp only [List.getD_eq_getElem?_getD, List.getElem?_map]
  cases hrow : p[i]? with
  | none => simp
  | some row =>
    simp only [Option.map_some', Option.getD_some, List.getElem?_map]
    cases hcol : row[j]? with
    | none => simp
    | some v => simp

/-- **C8, counterexample.** The extractor of `advanced_lsb_detector.py`
applied to its own output raises: on the 1x1 black raster it produces the
bit plane `[[0]]`, and applied to that 2-D plane `cv2.cvtColor` rejects the
single-channel input instead of returning the plane unchanged. -/
theorem C8_counterexample :
    Adv.extract_lsb_plane (Img.color [[(0, 0, 0)]]) = Except.ok [[0]] ∧
    Adv.extract_lsb_plane (Img.gray [[0]]) =
      Except.error "cvtColor: invalid number of channels in input image" := by
  constructor
  · show Except.ok (land1 (grayOf [[(0, 0, 0)]])) = Except.ok [[0]]
    norm_num [land1, grayOf, cvGray]
  · rfl

/-- **C8, amended.** The media-module extractor (which accepts both colour
and grayscale buffers) is a pure function, idempotent — re-applying it to
its own (2-D) output returns that output unchanged — and every entry of its
output on a colour buffer is the corresponding grayscale value `& 1`; the
detector-module variant agrees with it on every colour buffer (and is
likewise pure), but rejects every 2-D buffer — including its own output —
with a `cvtColor` channel error instead of returning it unchanged. -/
theorem C8_extractor_idempotent :
    (∀ x : Img, Media.extract_lsb_plane (Img.gray (Media.extract_lsb_plane x)) =
      Media.extract_lsb_plane x) ∧
    (∀ (x : Raster) (i j : ℕ),
      entryAt (Media.extract_lsb_plane (Img.color x)) i j = entryAt (grayOf x) i j &&& 1) ∧
    (∀ x : Raster, Adv.extract_lsb_plane (Img.color x) =
      Except.ok (Media.extract_lsb_plane (Img.color x))) ∧
    (∀ p : Plane, ∃ e, Adv.extract_lsb_plane (Img.gray p) = Except.error e) := by
  refine ⟨?_, ?_, ?_, ?_⟩
  · intro x
    cases x with
    | color y => exact land1_idem (grayOf y)
    | gray p => exact land1_idem p
  · intro x i j
    exact entryAt_land1 (grayOf x) i j
  · intro x
    rfl
  · intro p
    exact ⟨_, rfl⟩

/-! ## Claim C9: RS analysis fraction invariants -/

theorem rsIndices_nil_of_small (g : Plane) (h : g.length < 2 ∨ planeCols g < 2) :
    rsIndices g = [] := by
  unfold rsIndices
  rcases h with h | h
  · rw [Nat.div_eq_of_lt h]
    simp
  · rw [Nat.div_eq_of_lt h]
    simp

/-- **C9.** For every 2-D grayscale array, the 2x2-block RS analysis returns
fractions `(regular, singular)` with both components in `[0, 1]` and
`regular + singular ≤ 1` (each block is regular, singular, or neither), and
it returns exactly `(0, 0)` whenever the array has fewer than 2 rows or
fewer than 2 columns. -/
theorem C9_rs_analysis_invariants (g : Plane) :
    0 ≤ (Adv.rs_analysis g).1 ∧ (Adv.rs_analysis g).1 ≤ 1 ∧
    0 ≤ (Adv.rs_analysis g).2 ∧ (Adv.rs_analysis g).2 ≤ 1 ∧
    (Adv.rs_analysis g).1 + (Adv.rs_analysis g).2 ≤ 1 ∧
    ((g.length < 2 ∨ planeCols g < 2) → Adv.rs_analysis g = (0, 0)) := by
  have hdisj : ∀ x ∈ rsIndices g,
      ¬((fun p : ℕ × ℕ => decide ((blockVars g p.1 p.2).2 > (blockVars g p.1 p.2).1)) x = true ∧
        (fun p : ℕ × ℕ => decide ((blockVars g p.1 p.2).2 < (blockVars g p.1 p.2).1)) x = true) := by
    intro x _ hx
    simp only [decide_eq_true_eq] at hx
    exact absurd hx.1 (lt_asymm hx.2)
  have hr := List.countP_le_length
    (fun p : ℕ × ℕ => decide ((blockVars g p.1 p.2).2 > (blockVars g p.1 p.2).1))
    (l := rsIndices g)
  have hs := List.countP_le_length
    (fun p : ℕ × ℕ => decide ((blockVars g p.1 p.2).2 < (blockVars g p.1 p.2).1))
    (l := rsIndices g)
  have hrs := countP_add_countP_le_length (rsIndices g) _ _ hdisj
  simp only [Adv.rs_analysis]
  by_cases hT : (rsIndices g).length = 0
  · simp [hT]
  · have hTpos : (0 : ℚ) < ((rsIndices g).length : ℚ) := by
      exact_mod_cast Nat.pos_of_ne_zero hT
    simp only [if_neg hT]
    refine ⟨?_, ?_, ?_, ?_, ?_, ?_⟩
    · positivity
    · rw [div_le_one hTpos]
      exact_mod_cast hr
    · positivity
    · rw [div_le_one hTpos]
      exact_mod_cast hs
    · rw [div_add_div_same, div_le_one hTpos]
      exact_mod_cast hrs
    · intro hsmall
      exact absurd (by rw [rsIndices_nil_of_small g hsmall]; rfl) hT

/-- Witness for C9: the 1x1 array `[[5]]` has fewer than 2 rows, so the RS
fractions are exactly `(0, 0)` (also exercising the `[0, 1]` bounds). -/
theorem C9_witness :
    Adv.rs_analysis [[5]] = (0, 0) ∧ 0 ≤ (Adv.rs_analysis [[5]]).1 :=
  ⟨(C9_rs_analysis_invariants [[5]]).2.2.2.2.2 (Or.inl (by norm_num)),
   (C9_rs_analysis_invariants [[5]]).1⟩

/-! ## Claim C10: one suspicious frame suffices -/

theorem videoBandScore_detected (r : ℚ) (h : 0 < r) :
    (Media.videoBandScore r).1 = true := by
  unfold Media.videoBandScore
  split_ifs <;> simp [h]

theorem videoBandScore_low (r : ℚ) (h : r ≤ 1/10) :
    Media.videoBandScore r = (decide (0 < r), r * 3) := by
  unfold Media.videoBandScore
  rw [if_neg (by intro hc; linarith), if_neg (by intro hc; linarith),
    if_neg (by intro hc; linarith)]

/-- **C10.** In the video analysis path, whenever at least one sampled frame
is flagged suspicious the verdict has `hasSteganography = true` (whatever
the audio sub-analysis yields); and when the suspicious fraction is at or
below the lowest 0.1 band and the audio sub-analysis does not flag
detection, the confidence is exactly `suspicious_ratio * 3.0`. -/
theorem C10_single_frame_detection (v : Media.VideoInput)
    (hpos : 0 < v.frames.countP Media.frameSuspicious) :
    (Media.analyze_video (Except.ok v)).hasSteganography = true ∧
    ((v.frames.countP Media.frameSuspicious : ℚ) / (v.frames.length : ℚ) ≤ 1/10 →
      (∀ a, v.audio = some a → (Media.analyze_audio_lsb a).hasSteganography = false) →
      (Media.analyze_video (Except.ok v)).confidence =
        ((v.frames.countP Media.frameSuspicious : ℚ) / (v.frames.length : ℚ)) * 3) := by
  have hne : v.frames ≠ [] := by
    intro h
    rw [h] at hpos
    simp at hpos
  have hlenpos : 0 < v.frames.length := List.length_pos.mpr hne
  have hrpos : 0 < (v.frames.countP Media.frameSuspicious : ℚ) / (v.frames.length : ℚ) :=
    div_pos (by exact_mod_cast hpos) (by exact_mod_cast hlenpos)
  constructor
  · simp only [Media.analyze_video, if_neg hne]
    cases haud : v.audio with
    | none => simpa using videoBandScore_detected _ hrpos
    | some a =>
      simp only [Option.map_some']
      by_cases hd : (Media.analyze_audio_lsb a).hasSteganography = true
      · simp [hd]
      · simp [hd, videoBandScore_detected _ hrpos]
  · intro hle hnaud
    simp only [Media.analyze_video, if_neg hne]
    have hband := videoBandScore_low _ hle
    have hcap : ((v.frames.countP Media.frameSuspicious : ℚ) / (v.frames.length : ℚ)) * 3 ≤ 1 := by
      linarith
    cases haud : v.audio with
    | none =>
      simp only [Option.map_none', hband]
      exact min_eq_left hcap
    | some a =>
      have hfa := hnaud a haud
      simp only [Option.map_some', hband, hfa, Bool.false_eq_true, if_false]
      exact min_eq_left hcap

/-- Witness for C10: one suspicious frame (entropy 1) among 10 sampled
frames, no audio track: detected with confidence `(1/10) * 3 = 0.3`. -/
theorem C10_witness :
    (Media.analyze_video (Except.ok
      ⟨((0:ℚ), (1:ℚ)) :: List.replicate 9 ((1:ℚ), (0:ℚ)), none⟩)).hasSteganography = true ∧
    (Media.analyze_video (Except.ok
      ⟨((0:ℚ), (1:ℚ)) :: List.replicate 9 ((1:ℚ), (0:ℚ)), none⟩)).confidence = 3/10 := by
  have hc : (((0:ℚ), (1:ℚ)) :: List.replicate 9 ((1:ℚ), (0:ℚ))).countP Media.frameSuspicious = 1 := by
    rw [List.countP_cons, countP_replicate_eq]
    norm_num [Media.frameSuspicious]
  have hl : (((0:ℚ), (1:ℚ)) :: List.replicate 9 ((1:ℚ), (0:ℚ))).length = 10 := by
    simp
  have h := C10_single_frame_detection ⟨((0:ℚ), (1:ℚ)) :: List.replicate 9 ((1:ℚ), (0:ℚ)), none⟩
    (by rw [hc]; norm_num)
  refine ⟨h.1, ?_⟩
  have h2 := h.2 (by rw [hc, hl]; norm_num) (by intro a ha; cases ha)
  rw [h2, hc, hl]
  norm_num

/-- Witness for C8 applying the amended statement at a concrete 1x2 colour
buffer. -/
theorem C8_witness :
    Media.extract_lsb_plane (Img.gray (Media.extract_lsb_plane
      (Img.color [[(0, 0, 0), (1, 2, 3)]]))) =
    Media.extract_lsb_plane (Img.color [[(0, 0, 0), (1, 2, 3)]]) :=
  C8_extractor_idempotent.1 (Img.color [[(0, 0, 0), (1, 2, 3)]])
